import Mathlib

/-!
Verification of the Tetris game-state reducer (`game.ts`) of this repository:
board representation, collision detection (`fits`), piece locking and line
clearing (`lockPiece`), scoring, leveling, fall-delay schedule, the hold
mechanic, and the reducer (`gameReducer`) driving the status state machine.

Numbers are modelled exactly: board indices and piece coordinates as `Int`
(JavaScript numbers used as integers), score and counters as `Nat`, and the
level-speed factor 0.8 as a rational, so `getFallDelayMs` is the exact
mathematical value of the source formula.

Randomness (`randomType()`) is modelled by an explicit parameter `rng`: each
reducer step receives the tetromino kind that the single possible call to
`randomType()` in that step would return.
-/

/-- The seven tetromino kinds (`TetrominoType` in `tetrominoes.ts`). -/
inductive Tetromino where
  | I | O | T | S | Z | J | L
  deriving DecidableEq, Repr

/-- A board cell: `none` is the empty cell (`0` in the source), `some t` a
stamped cell carrying the kind tag `t` (`CellValue`). -/
abbrev Cell := Option Tetromino

/-- `Board`: list of rows, each a list of cells (`board[row][col]`). -/
abbrev Board := List (List Cell)

/-- Game status (`GameStatus`). -/
inductive GameStatus where
  | idle | playing | paused | gameover
  deriving DecidableEq, Repr

/-- Active piece (`PieceState`). -/
structure PieceState where
  type : Tetromino
  row : Int
  col : Int
  rotation : Nat
  deriving DecidableEq, Repr

/-- Full game state (`GameState`). -/
structure GameState where
  board : Board
  piece : Option PieceState
  nextPiece : Tetromino
  holdPiece : Option Tetromino
  canHold : Bool
  score : Nat
  level : Nat
  linesCleared : Nat
  status : GameStatus
  lastClearedLines : Nat
  lastLocked : Bool
  deriving DecidableEq, Repr

/-- Reducer actions (`GameAction`). -/
inductive GameAction where
  | start | pause | resume | restart
  | move_left | move_right | move_down
  | rotate_cw | rotate_ccw
  | hard_drop | hold | tick
  deriving DecidableEq, Repr

/-! Constants (`constants.ts`). -/

/-- Visible playfield width in columns. -/
def COLS : Nat := 10

/-- Visible playfield height in rows. -/
def ROWS : Nat := 20

/-- Number of lines cleared before level increases. -/
def LINES_PER_LEVEL : Nat := 10

/-- Base fall delay in milliseconds at level 1. -/
def BASE_FALL_MS : Nat := 1000

/-- Minimum fall delay in milliseconds. -/
def MIN_FALL_MS : Nat := 100

/-- Level multiplier for speed (0.8, exact). -/
def LEVEL_SPEED_FACTOR : ℚ := 4 / 5

/-- Score per lines cleared (`LINE_SCORES[k] ?? 0`): the lookup table has
entries for 1..4 and every other key falls back to 0. -/
def lineScore (k : Nat) : Nat :=
  match k with
  | 1 => 100
  | 2 => 300
  | 3 => 500
  | 4 => 800
  | _ => 0

/-- Spawn column. -/
def SPAWN_COL : Int := 3

/-- Spawn row. -/
def SPAWN_ROW : Int := 0

/-! Shapes (`tetrominoes.ts`): 4 rotations per kind, row-major bitmaps. -/

/-- The rotation list `SHAPES[t]` for a kind. -/
def shapesFor : Tetromino → List (List (List Nat))
  | .I =>
    [[[0, 0, 0, 0], [1, 1, 1, 1], [0, 0, 0, 0], [0, 0, 0, 0]],
     [[0, 0, 1, 0], [0, 0, 1, 0], [0, 0, 1, 0], [0, 0, 1, 0]],
     [[0, 0, 0, 0], [0, 0, 0, 0], [1, 1, 1, 1], [0, 0, 0, 0]],
     [[0, 1, 0, 0], [0, 1, 0, 0], [0, 1, 0, 0], [0, 1, 0, 0]]]
  | .O =>
    [[[1, 1], [1, 1]],
     [[1, 1], [1, 1]],
     [[1, 1], [1, 1]],
     [[1, 1], [1, 1]]]
  | .T =>
    [[[0, 1, 0], [1, 1, 1], [0, 0, 0]],
     [[0, 1, 0], [0, 1, 1], [0, 1, 0]],
     [[0, 0, 0], [1, 1, 1], [0, 1, 0]],
     [[0, 1, 0], [1, 1, 0], [0, 1, 0]]]
  | .S =>
    [[[0, 1, 1], [1, 1, 0], [0, 0, 0]],
     [[0, 1, 0], [0, 1, 1], [0, 0, 1]],
     [[0, 0, 0], [0, 1, 1], [1, 1, 0]],
     [[1, 0, 0], [1, 1, 0], [0, 1, 0]]]
  | .Z =>
    [[[1, 1, 0], [0, 1, 1], [0, 0, 0]],
     [[0, 0, 1], [0, 1, 1], [0, 1, 0]],
     [[0, 0, 0], [1, 1, 0], [0, 1, 1]],
     [[0, 1, 0], [1, 1, 0], [1, 0, 0]]]
  | .J =>
    [[[1, 0, 0], [1, 1, 1], [0, 0, 0]],
     [[0, 1, 1], [0, 1, 0], [0, 1, 0]],
     [[0, 0, 0], [1, 1, 1], [0, 0, 1]],
     [[0, 1, 0], [0, 1, 0], [1, 1, 0]]]
  | .L =>
    [[[0, 0, 1], [1, 1, 1], [0, 0, 0]],
     [[0, 1, 0], [0, 1, 0], [0, 1, 1]],
     [[0, 0, 0], [1, 1, 1], [1, 0, 0]],
     [[1, 1, 0], [0, 1, 0], [0, 1, 0]]]

/-- `getShape(type, rotation)`: `SHAPES[type][rotation % 4]`
(each rotation list has length 4). -/
def getShape (t : Tetromino) (rotation : Nat) : List (List Nat) :=
  (shapesFor t).getD (rotation % (shapesFor t).length) []

/-- Read `shape[r][c]`, with 0 for an out-of-range read (JS `undefined` is
falsy, so such a read behaves as an empty cell). -/
def shapeCell (shape : List (List Nat)) (r c : Nat) : Nat :=
  (shape.getD r []).getD c 0

/-- Read `board[i][j]`, with the empty cell for an out-of-range read. -/
def cellAt (board : Board) (i j : Nat) : Cell :=
  (board.getD i []).getD j none

/-- `fits(board, shape, row, col)`: iterate `r < shape.length`,
`c < shape[0].length`; skip unoccupied shape cells; an occupied cell must land
in `[0, ROWS) x [0, COLS)` on an empty board cell. -/
def fits (board : Board) (shape : List (List Nat)) (row col : Int) : Bool :=
  (List.range shape.length).all fun r =>
    (List.range (shape.getD 0 []).length).all fun c =>
      if shapeCell shape r c = 0 then true
      else
        let nr : Int := row + r
        let nc : Int := col + c
        0 ≤ nr && nr < (ROWS : Int) && 0 ≤ nc && nc < (COLS : Int) &&
          (cellAt board nr.toNat nc.toNat).isNone

/-- `createEmptyBoard()`: ROWS x COLS of empty cells. -/
def createEmptyBoard : Board :=
  List.replicate ROWS (List.replicate COLS (none : Cell))

/-- `createInitialState()`; `rng` is the kind `randomType()` returns for the
initial `nextPiece`. -/
def createInitialState (rng : Tetromino) : GameState where
  board := createEmptyBoard
  piece := none
  nextPiece := rng
  holdPiece := none
  canHold := true
  score := 0
  level := 1
  linesCleared := 0
  status := .idle
  lastClearedLines := 0
  lastLocked := false

/-- `getFallDelayMs(level)`: `max(MIN_FALL_MS, floor(BASE_FALL_MS *
LEVEL_SPEED_FACTOR ^ (level - 1)))`, in exact rational arithmetic. -/
def getFallDelayMs (level : Nat) : Int :=
  max (MIN_FALL_MS : Int)
    (Int.floor ((BASE_FALL_MS : ℚ) * LEVEL_SPEED_FACTOR ^ (level - 1)))

/-! Locking and line clearing (`lockPiece`). -/

/-- Whether the stamping loop of `lockPiece` writes the piece's tag at board
cell `(i, j)`: some occupied cell `(r, c)` of the shape satisfies
`piece.row + r = i` and `piece.col + c = j`. -/
def occupiesAt (shape : List (List Nat)) (prow pcol : Int) (i j : Nat) : Bool :=
  (List.range shape.length).any fun r =>
    (List.range (shape.getD 0 []).length).any fun c =>
      shapeCell shape r c ≠ 0 && prow + (r : Int) = (i : Int) &&
        pcol + (c : Int) = (j : Int)

/-- The stamping loop of `lockPiece`: copy the board and write
`newBoard[nr][nc] = piece.type` for every occupied shape cell that lands in
bounds. Described positionally: cell `(i, j)` of the result is the piece's
tag when the loop writes there, the old cell otherwise. -/
def stamp (board : Board) (p : PieceState) : Board :=
  let shape := getShape p.type p.rotation
  (List.range board.length).map fun i =>
    (List.range (board.getD i []).length).map fun j =>
      if occupiesAt shape p.row p.col i j then some p.type else cellAt board i j

/-- `row.every(cell => cell !== 0)`: a row is full when no cell is empty. -/
def isFullRow (row : List Cell) : Bool :=
  row.all fun cell => cell ≠ none

/-- The index list `fullRows` of `lockPiece`: scan `r = ROWS-1` down to `0`,
collecting indices of full rows of the stamped board. -/
def fullRowIdx (st : Board) : List Nat :=
  (List.range ROWS).reverse.filter fun r => isFullRow (st.getD r [])

/-- `newBoard.filter((_, i) => !fullRows.includes(i))`: keep the rows of the
stamped board whose index is not in `fullRows`, in order. -/
def removeRows (st : Board) (fullRows : List Nat) : Board :=
  (List.range st.length).filterMap fun r =>
    if fullRows.contains r then none else some (st.getD r [])

/-- A fully-empty row. -/
def emptyRow : List Cell := List.replicate COLS (none : Cell)

/-- `lockPiece(board, piece)`: stamp the piece, find the full rows, and when
there are any, drop them and prepend as many empty rows; returns the new
board and the number of lines cleared. -/
def lockPiece (board : Board) (p : PieceState) : Board × Nat :=
  let newBoard := stamp board p
  let fullRows := fullRowIdx newBoard
  let linesCleared := fullRows.length
  if linesCleared = 0 then (newBoard, 0)
  else
    (List.replicate linesCleared emptyRow ++ removeRows newBoard fullRows,
     linesCleared)

/-- `spawnNext(nextType, board)`: the candidate piece at the spawn position
with rotation 0, or `none` when it does not fit (game over). -/
def spawnNext (nextType : Tetromino) (board : Board) : Option PieceState :=
  let piece : PieceState :=
    { type := nextType, row := SPAWN_ROW, col := SPAWN_COL, rotation := 0 }
  if fits board (getShape piece.type piece.rotation) piece.row piece.col then
    some piece
  else none

/-- The `while (fits(board, shape, row + 1, col)) row++` loop of `hard_drop`,
bounded by `ROWS + 4` steps: for every shape with an occupied cell the loop
advances at most `ROWS + 3` times (an occupied cell forces `row + 1 < ROWS`),
and once `fits` fails at `row + 1` the row no longer changes. -/
def dropRow (board : Board) (shape : List (List Nat)) (col row : Int) : Int :=
  (List.range (ROWS + 4)).foldl
    (fun r _ => if fits board shape (r + 1) col then r + 1 else r) row

/-- The `move_down` branch of `gameReducer` (also reached from `tick`). -/
def moveDownStep (rng : Tetromino) (state : GameState) : GameState :=
  if state.status = .playing then
    match state.piece with
    | none => state
    | some p =>
      let shape := getShape p.type p.rotation
      if fits state.board shape (p.row + 1) p.col then
        { state with piece := some { p with row := p.row + 1 },
                     lastLocked := false }
      else
        let locked := lockPiece state.board p
        let scoreAdd := lineScore locked.2
        let newLines := state.linesCleared + locked.2
        let newLevel := newLines / LINES_PER_LEVEL + 1
        match spawnNext state.nextPiece locked.1 with
        | none =>
          { state with board := locked.1, piece := none,
                       score := state.score + scoreAdd,
                       linesCleared := newLines, level := newLevel,
                       status := .gameover, lastClearedLines := locked.2,
                       lastLocked := true }
        | some nextPiece =>
          { state with board := locked.1, piece := some nextPiece,
                       nextPiece := rng, canHold := true,
                       score := state.score + scoreAdd,
                       linesCleared := newLines, level := newLevel,
                       lastClearedLines := locked.2, lastLocked := true }
  else state

/-- `gameReducer(state, action)`. `rng` is the kind the (at most one) call to
`randomType()` in this step returns. -/
def gameReducer (rng : Tetromino) (state : GameState) (action : GameAction) :
    GameState :=
  match action with
  | .start =>
    if state.status = .idle then
      match spawnNext state.nextPiece state.board with
      | none => { state with status := .gameover, lastLocked := false }
      | some piece =>
        { state with status := .playing, piece := some piece,
                     nextPiece := rng, canHold := true, lastLocked := false }
    else state
  | .pause =>
    if state.status = .playing then
      { state with status := .paused, lastLocked := false }
    else state
  | .resume =>
    if state.status = .paused then
      { state with status := .playing, lastLocked := false }
    else state
  | .restart => createInitialState rng
  | .move_left =>
    if state.status = .playing then
      match state.piece with
      | none => state
      | some p =>
        let shape := getShape p.type p.rotation
        if fits state.board shape p.row (p.col - 1) then
          { state with piece := some { p with col := p.col - 1 },
                       lastLocked := false }
        else state
    else state
  | .move_right =>
    if state.status = .playing then
      match state.piece with
      | none => state
      | some p =>
        let shape := getShape p.type p.rotation
        if fits state.board shape p.row (p.col + 1) then
          { state with piece := some { p with col := p.col + 1 },
                       lastLocked := false }
        else state
    else state
  | .move_down => moveDownStep rng state
  | .rotate_cw =>
    if state.status = .playing then
      match state.piece with
      | none => state
      | some p =>
        let rot := (p.rotation + 1) % 4
        let shape := getShape p.type rot
        if fits state.board shape p.row p.col then
          { state with piece := some { p with rotation := rot },
                       lastLocked := false }
        else state
    else state
  | .rotate_ccw =>
    if state.status = .playing then
      match state.piece with
      | none => state
      | some p =>
        let rot := (p.rotation + 3) % 4
        let shape := getShape p.type rot
        if fits state.board shape p.row p.col then
          { state with piece := some { p with rotation := rot },
                       lastLocked := false }
        else state
    else state
  | .hard_drop =>
    if state.status = .playing then
      match state.piece with
      | none => state
      | some p =>
        let shape := getShape p.type p.rotation
        let dropped : PieceState :=
          { p with row := dropRow state.board shape p.col p.row }
        let locked := lockPiece state.board dropped
        let scoreAdd := lineScore locked.2
        let newLines := state.linesCleared + locked.2
        let newLevel := newLines / LINES_PER_LEVEL + 1
        match spawnNext state.nextPiece locked.1 with
        | none =>
          { state with board := locked.1, piece := none,
                       score := state.score + scoreAdd,
                       linesCleared := newLines, level := newLevel,
                       status := .gameover, lastClearedLines := locked.2,
                       lastLocked := true }
        | some nextPiece =>
          { state with board := locked.1, piece := some nextPiece,
                       nextPiece := rng, canHold := true,
                       score := state.score + scoreAdd,
                       linesCleared := newLines, level := newLevel,
                       lastClearedLines := locked.2, lastLocked := true }
    else state
  | .hold =>
    if state.status = .playing then
      match state.piece with
      | none => state
      | some p =>
        if state.canHold then
          let spawnType :=
            match state.holdPiece with
            | some h => h
            | none => state.nextPiece
          let nextPieceAfterHold :=
            match state.holdPiece with
            | some _ => state.nextPiece
            | none => rng
          let spawnedPiece : PieceState :=
            { type := spawnType, row := SPAWN_ROW, col := SPAWN_COL,
              rotation := 0 }
          if fits state.board (getShape spawnedPiece.type 0) spawnedPiece.row
              spawnedPiece.col then
            { state with piece := some spawnedPiece,
                         nextPiece := nextPieceAfterHold,
                         holdPiece := some p.type, canHold := false,
                         lastLocked := false }
          else { state with status := .gameover, lastLocked := false }
        else state
    else state
  | .tick =>
    if state.status = .playing then moveDownStep rng state else state

/-- States reachable from the initial state via the reducer, over every
possible sequence of actions and random draws. -/
inductive Reachable : GameState → Prop where
  | init (rng : Tetromino) : Reachable (createInitialState rng)
  | step (s : GameState) (a : GameAction) (rng : Tetromino) :
      Reachable s → Reachable (gameReducer rng s a)

/-- Well-formed board: exactly `ROWS` rows of `COLS` cells each. -/
def boardWF (board : Board) : Prop :=
  board.length = ROWS ∧ ∀ row ∈ board, row.length = COLS

/-- Whether dispatching `a` in state `s` runs the locking path of the
reducer: `move_down`/`tick` when the piece cannot advance one row, and
`hard_drop` whenever a piece is active while playing. -/
def actionLocks (s : GameState) (a : GameAction) : Bool :=
  match a, s.piece with
  | .move_down, some p | .tick, some p =>
    s.status == .playing &&
      !(fits s.board (getShape p.type p.rotation) (p.row + 1) p.col)
  | .hard_drop, some _ => s.status == .playing
  | _, _ => false

/-- The number of lines the locking path of action `a` in state `s` clears. -/
def lockLines (s : GameState) (a : GameAction) : Nat :=
  match a, s.piece with
  | .move_down, some p | .tick, some p => (lockPiece s.board p).2
  | .hard_drop, some p =>
    (lockPiece s.board
      { p with row := dropRow s.board (getShape p.type p.rotation) p.col p.row }).2
  | _, _ => 0

/-- The active piece, when present, fits the board at its recorded position
and rotation. -/
def pieceFits (s : GameState) : Prop :=
  ∀ p : PieceState, s.piece = some p →
    fits s.board (getShape p.type p.rotation) p.row p.col = true

/-- A playing state on an empty board with an active T piece, empty hold
slot, and `nextPiece = I`; used to exercise the `hold` action. -/
def holdDemoState : GameState :=
  { createInitialState Tetromino.I with
      status := GameStatus.playing
      piece := some { type := Tetromino.T, row := 0, col := 4, rotation := 0 } }

/-- A playing state whose previous action locked a piece clearing two lines
(`lastClearedLines = 2`, `lastLocked = true`), with an active T piece free to
move left. -/
def moveLeftDemoState : GameState :=
  { createInitialState Tetromino.I with
      status := GameStatus.playing
      piece := some { type := Tetromino.T, row := 0, col := 4, rotation := 0 }
      lastClearedLines := 2
      lastLocked := true }

/-- A board whose bottom row is full except columns 3 and 4: locking an O
piece at `(18, 3)` completes exactly that row. -/
def almostFullRowBoard : Board :=
  (List.range ROWS).map fun i =>
    (List.range COLS).map fun j =>
      if i = 19 ∧ j ≠ 3 ∧ j ≠ 4 then some Tetromino.I else none

/-- A playing state with `canHold = false` whose active T piece rests on the
floor: the next `move_down` locks it and spawns the queued piece. -/
def lockDemoState : GameState :=
  { createInitialState Tetromino.I with
      status := GameStatus.playing
      piece := some { type := Tetromino.T, row := 18, col := 4, rotation := 0 }
      canHold := false }

/-! Theorems. -/

/-- C5: for every level ≥ 1, `getFallDelayMs(level)` equals
`max(MIN_FALL_MS, floor(BASE_FALL_MS * LEVEL_SPEED_FACTOR ^ (level - 1)))`,
is monotonically non-increasing in the level, and never falls below
`MIN_FALL_MS`. -/
theorem C5_fall_delay (l1 l2 : Nat) (h1 : 1 ≤ l1) (hle : l1 ≤ l2) :
    getFallDelayMs l1 =
      max (MIN_FALL_MS : Int)
        (Int.floor ((BASE_FALL_MS : ℚ) * LEVEL_SPEED_FACTOR ^ (l1 - 1))) ∧
    getFallDelayMs l2 ≤ getFallDelayMs l1 ∧
    (MIN_FALL_MS : Int) ≤ getFallDelayMs l1 := by
  refine ⟨rfl, ?_, le_max_left _ _⟩
  have hfac0 : (0 : ℚ) ≤ LEVEL_SPEED_FACTOR := by norm_num [LEVEL_SPEED_FACTOR]
  have hfac1 : LEVEL_SPEED_FACTOR ≤ 1 := by norm_num [LEVEL_SPEED_FACTOR]
  have hexp : LEVEL_SPEED_FACTOR ^ (l2 - 1) ≤ LEVEL_SPEED_FACTOR ^ (l1 - 1) :=
    pow_le_pow_of_le_one hfac0 hfac1 (Nat.sub_le_sub_right hle 1)
  have hmul : (BASE_FALL_MS : ℚ) * LEVEL_SPEED_FACTOR ^ (l2 - 1) ≤
      (BASE_FALL_MS : ℚ) * LEVEL_SPEED_FACTOR ^ (l1 - 1) :=
    mul_le_mul_of_nonneg_left hexp (by norm_num)
  exact max_le_max le_rfl (Int.floor_le_floor hmul)

/-- C5 witness: the theorem applied at levels 1 and 2. -/
theorem C5_fall_delay_witness :
    1 ≤ 1 ∧ 1 ≤ 2 ∧
    (getFallDelayMs 1 =
      max (MIN_FALL_MS : Int)
        (Int.floor ((BASE_FALL_MS : ℚ) * LEVEL_SPEED_FACTOR ^ (1 - 1))) ∧
    getFallDelayMs 2 ≤ getFallDelayMs 1 ∧
    (MIN_FALL_MS : Int) ≤ getFallDelayMs 1) :=
  ⟨le_rfl, by norm_num, C5_fall_delay 1 2 le_rfl (by norm_num)⟩

/-- C1: for every board, rectangular shape matrix, and integer position,
`fits` returns true exactly when every occupied cell of the shape maps into
`[0, ROWS) x [0, COLS)` onto an empty board cell (equivalently, it returns
false exactly when some occupied cell maps out of bounds or onto a non-empty
cell). -/
theorem C1_fits_iff (board : Board) (shape : List (List Nat)) (row col : Int)
    (hs : ∀ r ∈ shape, r.length = (shape.getD 0 []).length) :
    fits board shape row col = true ↔
      ∀ r c : Nat, r < shape.length → c < (shape.getD 0 []).length →
        shapeCell shape r c ≠ 0 →
        0 ≤ row + (r : Int) ∧ row + (r : Int) < (ROWS : Int) ∧
          0 ≤ col + (c : Int) ∧ col + (c : Int) < (COLS : Int) ∧
          cellAt board (row + (r : Int)).toNat (col + (c : Int)).toNat = none := by
  unfold fits
  simp only [List.all_eq_true, List.mem_range]
  constructor
  · intro h r c hr hc hocc
    have h2 := h r hr c hc
    rw [if_neg hocc] at h2
    simp only [Bool.and_eq_true, decide_eq_true_eq,
      Option.isNone_iff_eq_none] at h2
    exact ⟨h2.1.1.1.1, h2.1.1.1.2, h2.1.1.2, h2.1.2, h2.2⟩
  · intro h r hr c hc
    by_cases hocc : shapeCell shape r c = 0
    · rw [if_pos hocc]
    · rw [if_neg hocc]
      obtain ⟨h1, h2, h3, h4, h5⟩ := h r c hr hc hocc
      simp only [Bool.and_eq_true, decide_eq_true_eq,
        Option.isNone_iff_eq_none]
      exact ⟨⟨⟨⟨h1, h2⟩, h3⟩, h4⟩, h5⟩

/-- C1 witness: the theorem applied to the empty board and the T shape at
position (0, 3). -/
theorem C1_fits_iff_witness :
    (∀ r ∈ getShape Tetromino.T 0,
      r.length = ((getShape Tetromino.T 0).getD 0 []).length) ∧
    (fits createEmptyBoard (getShape Tetromino.T 0) 0 3 = true ↔
      ∀ r c : Nat, r < (getShape Tetromino.T 0).length →
        c < ((getShape Tetromino.T 0).getD 0 []).length →
        shapeCell (getShape Tetromino.T 0) r c ≠ 0 →
        0 ≤ (0 : Int) + (r : Int) ∧ (0 : Int) + (r : Int) < (ROWS : Int) ∧
          0 ≤ (3 : Int) + (c : Int) ∧ (3 : Int) + (c : Int) < (COLS : Int) ∧
          cellAt createEmptyBoard ((0 : Int) + (r : Int)).toNat
            ((3 : Int) + (c : Int)).toNat = none) :=
  ⟨by decide, C1_fits_iff createEmptyBoard (getShape Tetromino.T 0) 0 3 (by decide)⟩

/-- C7 counterexample: in `holdDemoState` (playing, active piece, canHold,
empty hold slot) dispatching `hold` with fresh random draw `O` spawns the
queued next piece `I`, not the newly drawn random kind `O`. -/
theorem C7_hold_counterexample :
    holdDemoState.status = GameStatus.playing ∧
    holdDemoState.piece.isSome = true ∧
    holdDemoState.canHold = true ∧
    holdDemoState.holdPiece = none ∧
    (gameReducer Tetromino.O holdDemoState GameAction.hold).piece =
      some { type := Tetromino.I, row := 0, col := 3, rotation := 0 } ∧
    Tetromino.I ≠ Tetromino.O := by decide

/-- C7 amended: `hold` in a playing state with an active piece and
`canHold = true` puts the active kind into the hold slot and spawns, at the
spawn position with rotation 0, the previously-held kind if the hold slot was
non-empty and otherwise the queued next piece (a newly drawn random kind then
refills the next queue); if the swapped-in piece cannot spawn, status becomes
game-over. -/
theorem C7_hold_amended (rng : Tetromino) (s : GameState) (p : PieceState)
    (hst : s.status = GameStatus.playing) (hp : s.piece = some p)
    (hch : s.canHold = true) :
    (fits s.board (getShape (s.holdPiece.getD s.nextPiece) 0) SPAWN_ROW
        SPAWN_COL = true →
      gameReducer rng s GameAction.hold =
        { s with
            piece := some { type := s.holdPiece.getD s.nextPiece,
                            row := SPAWN_ROW, col := SPAWN_COL, rotation := 0 },
            nextPiece := if s.holdPiece.isSome then s.nextPiece else rng,
            holdPiece := some p.type, canHold := false,
            lastLocked := false }) ∧
    (fits s.board (getShape (s.holdPiece.getD s.nextPiece) 0) SPAWN_ROW
        SPAWN_COL = false →
      gameReducer rng s GameAction.hold =
        { s with status := GameStatus.gameover, lastLocked := false }) := by
  cases hh : s.holdPiece with
  | none =>
    constructor <;> intro hf <;>
      simp only [gameReducer, hst, hp, hch, hh, if_true, Option.getD,
        Option.isSome] at hf ⊢ <;>
      simp [hf]
  | some t =>
    constructor <;> intro hf <;>
      simp only [gameReducer, hst, hp, hch, hh, if_true, Option.getD,
        Option.isSome] at hf ⊢ <;>
      simp [hf]

/-- C7 witness: the amended theorem applied to `holdDemoState` with random
draw `O`; the spawned piece is the queued `I` and `O` refills the queue. -/
theorem C7_hold_witness :
    gameReducer Tetromino.O holdDemoState GameAction.hold =
      { holdDemoState with
          piece := some { type := Tetromino.I, row := SPAWN_ROW,
                          col := SPAWN_COL, rotation := 0 },
          nextPiece := Tetromino.O,
          holdPiece := some Tetromino.T, canHold := false,
          lastLocked := false } := by
  have h := (C7_hold_amended Tetromino.O holdDemoState
    { type := Tetromino.T, row := 0, col := 4, rotation := 0 }
    rfl rfl rfl).1 (by decide)
  simpa using h

/-- C8 counterexample: from `moveLeftDemoState` (whose previous action
cleared 2 lines), `move_left` produces a new state that did not lock and
cleared no lines, yet its `lastClearedLines` is still 2, not 0. -/
theorem C8_transient_counterexample :
    gameReducer Tetromino.I moveLeftDemoState GameAction.move_left ≠
      moveLeftDemoState ∧
    (gameReducer Tetromino.I moveLeftDemoState GameAction.move_left).lastLocked
      = false ∧
    (gameReducer Tetromino.I moveLeftDemoState
      GameAction.move_left).lastClearedLines = 2 := by decide

/-- C9 counterexample: a reachable paused state (start, then pause) whose
active-piece field is non-null although the status is not `playing`. -/
theorem C9_piece_counterexample :
    Reachable (gameReducer Tetromino.I
      (gameReducer Tetromino.O (createInitialState Tetromino.O)
        GameAction.start) GameAction.pause) ∧
    (gameReducer Tetromino.I
      (gameReducer Tetromino.O (createInitialState Tetromino.O)
        GameAction.start) GameAction.pause).status = GameStatus.paused ∧
    (gameReducer Tetromino.I
      (gameReducer Tetromino.O (createInitialState Tetromino.O)
        GameAction.start) GameAction.pause).piece ≠ none :=
  ⟨Reachable.step _ _ _ (Reachable.step _ _ _ (Reachable.init Tetromino.O)),
   by decide, by decide⟩

/-- C6: with `canHold = false`, `hold` returns the state unchanged; and for
any action other than `restart` and `start`, `canHold` can go from false to
true only on a transition that locks a piece and successfully spawns the next
one. -/
theorem C6_can_hold (rng : Tetromino) (s : GameState) (a : GameAction)
    (hch : s.canHold = false) :
    gameReducer rng s GameAction.hold = s ∧
    (a ≠ GameAction.restart → a ≠ GameAction.start →
      (gameReducer rng s a).canHold = true →
      (gameReducer rng s a).lastLocked = true ∧
        (gameReducer rng s a).piece.isSome = true) := by
  constructor
  · simp only [gameReducer]
    split
    · cases hp : s.piece with
      | none => rfl
      | some p => simp [hch]
    · rfl
  · intro hra hsa hc
    cases a <;>
      simp only [gameReducer, moveDownStep] at hc ⊢ <;>
      first
      | exact absurd rfl hsa
      | exact absurd rfl hra
      | (repeat' split at hc <;> try simp_all)

/-- C6 witness: in `lockDemoState` (`canHold = false`), `hold` is a no-op,
and the locking `move_down` is a transition on which `canHold` may return to
true: it locks and spawns the next piece. -/
theorem C6_can_hold_witness :
    gameReducer Tetromino.O lockDemoState GameAction.hold = lockDemoState ∧
    ((gameReducer Tetromino.O lockDemoState GameAction.move_down).lastLocked
        = true ∧
      (gameReducer Tetromino.O lockDemoState
        GameAction.move_down).piece.isSome = true) :=
  ⟨(C6_can_hold Tetromino.O lockDemoState GameAction.move_down rfl).1,
   (C6_can_hold Tetromino.O lockDemoState GameAction.move_down rfl).2
     (by decide) (by decide) (by decide)⟩

/-- `getD` of a mapped range picks out the function value. -/
theorem getD_range_map {α : Type} (f : Nat → α) (n i : Nat) (d : α) (h : i < n) :
    ((List.range n).map f).getD i d = f i := by
  rw [List.getD_eq_getElem?_getD, List.getElem?_map, List.getElem?_range h]
  rfl

theorem stamp_length (board : Board) (p : PieceState) :
    (stamp board p).length = board.length := by
  simp [stamp]

theorem stamp_getD (board : Board) (p : PieceState) (i : Nat)
    (hi : i < board.length) :
    (stamp board p).getD i [] =
      (List.range (board.getD i []).length).map fun j =>
        if occupiesAt (getShape p.type p.rotation) p.row p.col i j
        then some p.type else cellAt board i j := by
  unfold stamp
  exact getD_range_map _ _ _ _ hi

theorem row_length_eq (board : Board) (hb : boardWF board) (i : Nat)
    (hi : i < ROWS) : (board.getD i []).length = COLS := by
  have hlen : i < board.length := by rw [hb.1]; exact hi
  rw [List.getD_eq_getElem _ _ hlen]
  exact hb.2 _ (List.getElem_mem hlen)

theorem cellAt_stamp (board : Board) (p : PieceState) (hb : boardWF board)
    (i j : Nat) (hi : i < ROWS) (hj : j < COLS) :
    cellAt (stamp board p) i j =
      if occupiesAt (getShape p.type p.rotation) p.row p.col i j
      then some p.type else cellAt board i j := by
  have hlen : i < board.length := by rw [hb.1]; exact hi
  show ((stamp board p).getD i []).getD j none = _
  rw [stamp_getD board p i hlen]
  have hj' : j < (board.getD i []).length := by
    rw [row_length_eq board hb i hi]; exact hj
  exact getD_range_map _ _ _ _ hj'

theorem filter_range_getD {α : Type} (l : List α) (q : α → Bool) (d : α) :
    ((List.range l.length).filter fun i => q (l.getD i d)).length =
      (l.filter q).length := by
  induction l with
  | nil => simp
  | cons x xs ih =>
    rw [List.length_cons, List.range_succ_eq_map, List.filter_cons,
      List.filter_cons]
    have hmap : (List.filter (fun i => q ((x :: xs).getD i d))
        (List.map Nat.succ (List.range xs.length))) =
        List.map Nat.succ
          (List.filter ((fun i => q ((x :: xs).getD i d)) ∘ Nat.succ)
            (List.range xs.length)) := List.filter_map _ _
    have hcomp : ((fun i => q ((x :: xs).getD i d)) ∘ Nat.succ) =
        fun i => q (xs.getD i d) := by
      funext i
      simp [List.getD_cons_succ]
    rw [hmap, hcomp]
    have ih2 : (List.filter (fun i => q (xs[i]?.getD d))
        (List.range xs.length)).length = (List.filter q xs).length := by
      simpa [List.getD_eq_getElem?_getD] using ih
    by_cases hq : q x = true <;> simp [List.getD_cons_zero, hq, ih2]

theorem fullRowIdx_length (st : Board) (hlen : st.length = ROWS) :
    (fullRowIdx st).length = st.countP (fun row => isFullRow row) := by
  unfold fullRowIdx
  rw [List.filter_reverse, List.length_reverse, List.countP_eq_length_filter]
  have := filter_range_getD st (fun row => isFullRow row) []
  rw [hlen] at this
  exact this

theorem contains_fullRowIdx (st : Board) (r : Nat) (hr : r < ROWS) :
    (fullRowIdx st).contains r = isFullRow (st.getD r []) := by
  unfold fullRowIdx
  by_cases hf : isFullRow (st.getD r []) = true
  · rw [hf]
    have hmem : r ∈ (List.range ROWS).reverse.filter
        fun i => isFullRow (st.getD i []) := by
      rw [List.mem_filter]
      exact ⟨by simp [List.mem_reverse, List.mem_range, hr], hf⟩
    exact List.elem_iff.mpr hmem
  · rw [Bool.not_eq_true] at hf
    rw [hf]
    rw [← Bool.not_eq_true]
    intro hcon
    have hmem := List.elem_iff.mp hcon
    rw [List.mem_filter] at hmem
    rw [hf] at hmem
    exact Bool.false_ne_true hmem.2

theorem filterMap_range_getD {α : Type} (l : List α) (q : α → Bool) (d : α) :
    ((List.range l.length).filterMap fun i =>
      if q (l.getD i d) then none else some (l.getD i d)) =
      l.filter fun x => !(q x) := by
  induction l with
  | nil => simp
  | cons x xs ih =>
    rw [List.length_cons, List.range_succ_eq_map, List.filterMap_cons]
    have hmap : (List.filterMap (fun i =>
        if q ((x :: xs).getD i d) then none else some ((x :: xs).getD i d))
        (List.map Nat.succ (List.range xs.length))) =
        List.filterMap ((fun i =>
          if q ((x :: xs).getD i d) then none else some ((x :: xs).getD i d))
            ∘ Nat.succ) (List.range xs.length) := List.filterMap_map _ _ _
    have hcomp : ((fun i =>
        if q ((x :: xs).getD i d) then none else some ((x :: xs).getD i d))
          ∘ Nat.succ) =
        fun i => if q (xs.getD i d) then none else some (xs.getD i d) := by
      funext i
      simp [List.getD_cons_succ]
    rw [hmap, hcomp, ih]
    by_cases hq : q x = true <;>
      simp [List.getD_cons_zero, hq, List.filter_cons]

theorem filterMap_range_congr {α : Type} (n : Nat) (f g : Nat → Option α)
    (h : ∀ i < n, f i = g i) :
    (List.range n).filterMap f = (List.range n).filterMap g := by
  induction n with
  | zero => rfl
  | succ m ih =>
    rw [List.range_succ, List.filterMap_append, List.filterMap_append]
    rw [ih fun i hi => h i (Nat.lt_succ_of_lt hi)]
    have hm := h m (Nat.lt_succ_self m)
    simp [List.filterMap_cons, hm]

theorem removeRows_eq_filter (st : Board) (hlen : st.length = ROWS) :
    removeRows st (fullRowIdx st) =
      st.filter fun row => !(isFullRow row) := by
  unfold removeRows
  have hcong : (List.range st.length).filterMap (fun r =>
      if (fullRowIdx st).contains r then none else some (st.getD r [])) =
      (List.range st.length).filterMap (fun r =>
        if isFullRow (st.getD r []) then none else some (st.getD r [])) := by
    apply filterMap_range_congr
    intro i hi
    rw [contains_fullRowIdx st i (by rw [← hlen]; exact hi)]
  rw [hcong, filterMap_range_getD]

/-- C2: `lockPiece` stamps the piece's occupied cells into the board with its
kind tag; if the stamped board contains exactly `k` full rows, the resulting
board is `k` fully-empty rows on top of the non-full rows of the stamped
board in their original order, and `k` is reported as the lines cleared. -/
theorem C2_lock_clear (board : Board) (p : PieceState) (k : Nat)
    (hb : boardWF board)
    (hk : (stamp board p).countP (fun row => isFullRow row) = k) :
    (lockPiece board p).2 = k ∧
    (lockPiece board p).1 =
      List.replicate k emptyRow ++
        (stamp board p).filter (fun row => !(isFullRow row)) ∧
    (∀ i j : Nat, i < ROWS → j < COLS →
      cellAt (stamp board p) i j =
        if occupiesAt (getShape p.type p.rotation) p.row p.col i j
        then some p.type else cellAt board i j) := by
  have hlen : (stamp board p).length = ROWS := by
    rw [stamp_length]; exact hb.1
  have hfl := fullRowIdx_length (stamp board p) hlen
  have h3 : ∀ i j : Nat, i < ROWS → j < COLS →
      cellAt (stamp board p) i j =
        if occupiesAt (getShape p.type p.rotation) p.row p.col i j
        then some p.type else cellAt board i j :=
    fun i j hi hj => cellAt_stamp board p hb i j hi hj
  by_cases h0 : (fullRowIdx (stamp board p)).length = 0
  · have hk0 : k = 0 := by rw [← hk, ← hfl, h0]
    have hfilt : (stamp board p).filter (fun row => !(isFullRow row)) =
        stamp board p := by
      apply List.filter_eq_self.mpr
      intro row hrow
      have := List.countP_eq_zero.mp (by rw [hk, hk0] :
        (stamp board p).countP (fun row => isFullRow row) = 0) row hrow
      simp [this]
    refine ⟨?_, ?_, h3⟩
    · simp only [lockPiece, h0, if_true, hk0]
    · simp only [lockPiece, h0, if_true, hk0, List.replicate_zero,
        List.nil_append, hfilt]
  · refine ⟨?_, ?_, h3⟩
    · simp only [lockPiece, h0, if_false]
      rw [← hk, ← hfl]
    · simp only [lockPiece, h0, if_false]
      rw [← hk, ← hfl, removeRows_eq_filter (stamp board p) hlen]

/-- C2 witness: locking an O piece at (18, 3) on `almostFullRowBoard`
completes and clears exactly the bottom row. -/
theorem C2_lock_clear_witness :
    (lockPiece almostFullRowBoard
      { type := Tetromino.O, row := 18, col := 3, rotation := 0 }).2 = 1 ∧
    (lockPiece almostFullRowBoard
      { type := Tetromino.O, row := 18, col := 3, rotation := 0 }).1 =
      List.replicate 1 emptyRow ++
        (stamp almostFullRowBoard
          { type := Tetromino.O, row := 18, col := 3, rotation := 0 }).filter
          (fun row => !(isFullRow row)) ∧
    (∀ i j : Nat, i < ROWS → j < COLS →
      cellAt (stamp almostFullRowBoard
        { type := Tetromino.O, row := 18, col := 3, rotation := 0 }) i j =
        if occupiesAt (getShape Tetromino.O 0) 18 3 i j
        then some Tetromino.O
        else cellAt almostFullRowBoard i j) :=
  C2_lock_clear almostFullRowBoard
    { type := Tetromino.O, row := 18, col := 3, rotation := 0 } 1
    ⟨by decide, by decide⟩ (by decide)

/-- C4: in every reachable state, `level = linesCleared / LINES_PER_LEVEL + 1`
(recomputed from the total at each lock); in particular 9 total lines give
level 1 and 10 give level 2. -/
theorem C4_level (s : GameState) (h : Reachable s) :
    s.level = s.linesCleared / LINES_PER_LEVEL + 1 ∧
    (s.linesCleared = 9 → s.level = 1) ∧
    (s.linesCleared = 10 → s.level = 2) := by
  have hmain : s.level = s.linesCleared / LINES_PER_LEVEL + 1 := by
    induction h with
    | init rng => simp [createInitialState]
    | step s a rng _ ih =>
      cases a <;>
        simp only [gameReducer, moveDownStep] <;>
        (repeat' split) <;>
        simp_all [createInitialState, LINES_PER_LEVEL]
  refine ⟨hmain, ?_, ?_⟩ <;> intro hlc <;> rw [hmain, hlc] <;> rfl

/-- A successful `spawnNext` returns the piece at the spawn position with
rotation 0, and that piece fits the board. -/
theorem spawnNext_fits (t : Tetromino) (b : Board) (p : PieceState)
    (h : spawnNext t b = some p) :
    p = { type := t, row := SPAWN_ROW, col := SPAWN_COL, rotation := 0 } ∧
    fits b (getShape p.type p.rotation) p.row p.col = true := by
  simp only [spawnNext] at h
  split at h
  · cases h
    constructor
    · rfl
    · assumption
  · cases h

/-- C9 amended: in every reachable state the active piece is non-null while
status is playing or paused, and null while status is idle (a game-over state
may retain the piece, e.g. after a failed hold spawn). -/
theorem C9_piece_amended (s : GameState) (h : Reachable s) :
    (s.status = GameStatus.playing → s.piece.isSome = true) ∧
    (s.status = GameStatus.paused → s.piece.isSome = true) ∧
    (s.status = GameStatus.idle → s.piece = none) := by
  induction h with
  | init rng => simp [createInitialState]
  | step s a rng _ ih =>
    cases a <;>
      simp only [gameReducer, moveDownStep] <;>
      (repeat' split) <;>
      simp_all [createInitialState]

/-- C10: in every reachable state, whenever the active piece is non-null it
fits the board: every occupied cell of its shape at its position is in bounds
and over an empty cell. -/
theorem C10_piece_fits (s : GameState) (h : Reachable s) : pieceFits s := by
  induction h with
  | init rng =>
    intro p hp
    simp [createInitialState] at hp
  | step s a rng _ ih =>
    cases a <;>
      simp only [gameReducer, moveDownStep] <;>
      (repeat' split) <;>
      intro p hp <;>
      first
        | exact ih p hp
        | (simp only [Option.some.injEq] at hp; subst hp;
           first
             | exact (spawnNext_fits _ _ _ (by assumption)).2
             | (simp_all; done))
        | (simp [createInitialState] at hp; done)

/-- C4 witness: the theorem applied to the initial state. -/
theorem C4_level_witness :
    (createInitialState Tetromino.I).level =
      (createInitialState Tetromino.I).linesCleared / LINES_PER_LEVEL + 1 ∧
    ((createInitialState Tetromino.I).linesCleared = 9 →
      (createInitialState Tetromino.I).level = 1) ∧
    ((createInitialState Tetromino.I).linesCleared = 10 →
      (createInitialState Tetromino.I).level = 2) :=
  C4_level (createInitialState Tetromino.I) (Reachable.init Tetromino.I)

/-- C9 witness: the amended theorem applied to the initial (idle) state. -/
theorem C9_piece_amended_witness :
    (createInitialState Tetromino.I).piece = none :=
  (C9_piece_amended (createInitialState Tetromino.I)
    (Reachable.init Tetromino.I)).2.2 rfl

/-- C10 witness: the theorem applied to the state after `start`, whose O
piece at the spawn position fits the empty board. -/
theorem C10_piece_fits_witness :
    fits (gameReducer Tetromino.I (createInitialState Tetromino.O)
        GameAction.start).board
      (getShape Tetromino.O 0) 0 3 = true :=
  C10_piece_fits _ (Reachable.step _ _ _ (Reachable.init Tetromino.O))
    { type := Tetromino.O, row := 0, col := 3, rotation := 0 } (by decide)

/-- C3: every locking transition (`move_down`/`tick` when the piece cannot
advance, and `hard_drop`) adds exactly the table value for the lines cleared
by that lock to the score (table: 0,100,300,500,800 for 0..4 lines), and no
action other than `restart` ever decreases the score. -/
theorem C3_score :
    (lineScore 0 = 0 ∧ lineScore 1 = 100 ∧ lineScore 2 = 300 ∧
      lineScore 3 = 500 ∧ lineScore 4 = 800) ∧
    (∀ (rng : Tetromino) (s : GameState) (p : PieceState),
      s.status = GameStatus.playing → s.piece = some p →
      fits s.board (getShape p.type p.rotation) (p.row + 1) p.col = false →
      (gameReducer rng s GameAction.move_down).score =
        s.score + lineScore (lockPiece s.board p).2 ∧
      (gameReducer rng s GameAction.tick).score =
        s.score + lineScore (lockPiece s.board p).2) ∧
    (∀ (rng : Tetromino) (s : GameState) (p : PieceState),
      s.status = GameStatus.playing → s.piece = some p →
      (gameReducer rng s GameAction.hard_drop).score =
        s.score + lineScore (lockPiece s.board
          { p with row := (dropRow s.board (getShape p.type p.rotation)
              p.col p.row) }).2) ∧
    (∀ (rng : Tetromino) (s : GameState) (a : GameAction),
      a ≠ GameAction.restart → s.score ≤ (gameReducer rng s a).score) := by
  refine ⟨by decide, ?_, ?_, ?_⟩
  · intro rng s p hst hp hf
    constructor <;>
    · simp only [gameReducer, moveDownStep, hst, hp, hf, if_true]
      simp only [Bool.false_eq_true, if_false]
      cases hsp : spawnNext s.nextPiece (lockPiece s.board p).1 <;>
        simp [hsp]
  · intro rng s p hst hp
    simp only [gameReducer, hst, hp, if_true]
    cases hsp : spawnNext s.nextPiece
        (lockPiece s.board
          { p with row := (dropRow s.board (getShape p.type p.rotation)
              p.col p.row) }).1 <;>
      simp [hsp]
  · intro rng s a hra
    cases a <;>
      first
      | exact absurd rfl hra
      | (simp only [gameReducer, moveDownStep]
         (repeat' split) <;>
           first
           | exact Nat.le_refl _
           | exact Nat.le_add_right _ _)

/-- C8 amended: every state-changing transition sets `lastLocked` to whether
that action locked a piece; `lastClearedLines` is set to the lines cleared by
the lock on locking transitions and to 0 by `restart`, and otherwise retains
its previous value (it is not reset by non-locking actions). -/
theorem C8_transient_amended (rng : Tetromino) (s : GameState)
    (a : GameAction) (hne : gameReducer rng s a ≠ s) :
    (gameReducer rng s a).lastLocked = actionLocks s a ∧
    (gameReducer rng s a).lastClearedLines =
      (if actionLocks s a = true then lockLines s a
       else if a = GameAction.restart then 0 else s.lastClearedLines) := by
  cases a <;>
    cases hsp : s.piece <;>
    simp only [gameReducer, moveDownStep, actionLocks, lockLines, hsp]
      at hne ⊢ <;>
    (repeat' split at hne) <;>
    simp_all [createInitialState]

/-- C3 witness: the theorem applied to `lockDemoState`, whose `move_down`
locks clearing 0 lines, and to a `move_left` for monotonicity. -/
theorem C3_score_witness :
    (gameReducer Tetromino.O lockDemoState GameAction.move_down).score =
      lockDemoState.score + lineScore (lockPiece lockDemoState.board
        { type := Tetromino.T, row := 18, col := 4, rotation := 0 }).2 ∧
    lockDemoState.score ≤
      (gameReducer Tetromino.O lockDemoState GameAction.move_left).score :=
  ⟨(C3_score.2.1 Tetromino.O lockDemoState
      { type := Tetromino.T, row := 18, col := 4, rotation := 0 }
      rfl rfl (by decide)).1,
   C3_score.2.2.2 Tetromino.O lockDemoState GameAction.move_left (by decide)⟩

/-- C8 witness: the amended theorem applied to the state-changing
`move_left` from `moveLeftDemoState`. -/
theorem C8_transient_amended_witness :
    (gameReducer Tetromino.I moveLeftDemoState
        GameAction.move_left).lastLocked =
      actionLocks moveLeftDemoState GameAction.move_left ∧
    (gameReducer Tetromino.I moveLeftDemoState
        GameAction.move_left).lastClearedLines =
      (if actionLocks moveLeftDemoState GameAction.move_left = true
       then lockLines moveLeftDemoState GameAction.move_left
       else if GameAction.move_left = GameAction.restart then 0
       else moveLeftDemoState.lastClearedLines) :=
  C8_transient_amended Tetromino.I moveLeftDemoState GameAction.move_left
    (by decide)
